import Mathlib

/-!
# insthugo: the Hugo installer of filebrowser

A shallow embedding of `src/insthugo/insthugo.go`.

The Go code is straight-line I/O with early exits.  It is embedded as a pure
function of

* the platform (`runtime.GOOS`, `runtime.GOARCH`, and the two `path/filepath`
  functions the code calls),
* the package-level variables (`filename`, `tempfiles`), threaded explicitly,
* the result that every system or library call returns at its call site
  (an `Env`),

and it yields how the call ended (return value or process exit), the new
package-level variables, and the ordered list of the calls it made.
-/

namespace Insthugo

/-! ## Go values -/

/-- A non-nil Go `error`.  The code only prints errors and asks `os.IsExist`. -/
structure GoError where
  msg : String
  isExist : Bool
  deriving DecidableEq, Repr

/-- The Go `error` interface: `none` is `nil`. -/
abbrev Err := Option GoError

/-- `os.IsExist(err)`: false on `nil`. -/
def osIsExist : Err → Bool
  | none => false
  | some e => e.isExist

/-- What `fmt.Println(err)` writes for an error value. -/
def errText : Err → String
  | none => "<nil>"
  | some e => e.msg

/-! ## `strings.Replace(s, old, new, 1)` -/

/-- Replace the leftmost occurrence of `old` in `s` by `new` (character lists). -/
def replaceFirstChars (old new : List Char) : List Char → List Char
  | [] => if old = [] then new else []
  | c :: cs =>
    if old.isPrefixOf (c :: cs) then new ++ (c :: cs).drop old.length
    else c :: replaceFirstChars old new cs

/-- Go `strings.Replace(s, old, new, 1)`. -/
def stringsReplace1 (s old new : String) : String :=
  String.mk (replaceFirstChars old.data new.data s.data)

/-! ## `encoding/hex` -/

/-- The `hextable` of `encoding/hex`: the digit for a nibble. -/
def hexDigit (n : Nat) : Char :=
  "0123456789abcdef".data.getD (n % 16) '0'

/-- `hex.EncodeToString` on a list of bytes: two lower-case digits per byte. -/
def hexChars : List Nat → List Char
  | [] => []
  | b :: bs => hexDigit (b / 16) :: hexDigit (b % 16) :: hexChars bs

/-- Go `hex.EncodeToString`. -/
def EncodeToString (bs : List Nat) : String := String.mk (hexChars bs)

/-! ## Package-level constants and variables (lines 19-46) -/

/-- The constant `version`. -/
def version : String := "0.15"

/-- The constant `baseurl`. -/
def baseurl : String := "https://github.com/spf13/hugo/releases/download/v" ++ version ++ "/"

/-- The map literal `sha256Hash`, in source order. -/
def sha256Hash : List (String × String) :=
  [ ("hugo_0.15_darwin_386.zip", "f9b7353f9b64e7aece5f7981e5aa97dc4b31974ce76251edc070e77691bc03e2"),
    ("hugo_0.15_darwin_amd64.zip", "aeecd6a12d86ab920f5b04e9486474bbe478dc246cdc2242799849b84c61c6f1"),
    ("hugo_0.15_dragonfly_amd64.zip", "e380343789f2b2e0c366c8e1eeb251ccd90eea53dac191ff85d8177b130e53bc"),
    ("hugo_0.15_freebsd_386.zip", "98f9210bfa3dcb48bd154879ea1cfe1b0ed8a3d891fdeacbdb4c3fc69b72aac4"),
    ("hugo_0.15_freebsd_amd64.zip", "aa6a3028899e76e6920b9b5a64c29e14017ae34120efa67276e614e3a69cb100"),
    ("hugo_0.15_freebsd_arm.zip", "de52e1b07caf778bdc3bdb07f39119cd5a1739c8822ebe311cd4f667c43588ac"),
    ("hugo_0.15_linux_386.tar.gz", "af28c4cbb16db765535113f361a38b2249c634ce2d3798dcf5b795de6e4b7ecf"),
    ("hugo_0.15_linux_amd64.tar.gz", "32a6335bd76f72867efdec9306a8a7eb7b9498a2e0478105efa96c1febadb09b"),
    ("hugo_0.15_linux_arm.tar.gz", "886dd1a843c057a46c541011183dd558469250580e81450eedbd1a4d041e9234"),
    ("hugo_0.15_netbsd_386.zip", "6245f5db16b33a09466f149d5b7b68a7899d6d624903de9e7e70c4b6ea869a72"),
    ("hugo_0.15_netbsd_amd64.zip", "103ea8d81d2a3d707c05e3dd68c98fcf8146ddd36b49bf0e65d9874cee230c88"),
    ("hugo_0.15_netbsd_arm.zip", "9c9b5cf4ea3b6169be1b5fc924251a247d9c140dd8a45aa5175031878585ff0a"),
    ("hugo_0.15_openbsd_386.zip", "81dfdb3048a27a61b249650241fe4e8da1eda31a3a7311c615eb419f1cdd06b1"),
    ("hugo_0.15_openbsd_amd64.zip", "e7447cde0dd7628b05b25b86938018774d8db8156ab1330b364e0e2c6501ad87"),
    ("hugo_0.15_windows_386_32-bit-only.zip", "0a72f9a1a929f36c0e52fb1c6272b4d37a2bd1a6bd19ce57a6e7b6803b434756"),
    ("hugo_0.15_windows_amd64.zip", "9f03602e48ae2199e06431d7436fb3b9464538c0d44aac9a76eb98e1d4d5d727") ]

/-- Go map indexing `m[k]` on a `map[string]string`: the zero value `""` when
the key is absent. -/
def mapIndex (m : List (String × String)) (k : String) : String :=
  (m.lookup k).getD ""

/-- The platform the binary was built for, and the two `path/filepath`
functions `Install` and `unzip` call (they depend on the target OS). -/
structure Runtime where
  GOOS : String
  GOARCH : String
  Clean : String → String
  Join : String → String → String

/-- The package-level variables that `Install` reads and writes. -/
structure Globals where
  tempfiles : List String
  filename : String
  deriving DecidableEq, Repr

/-- The initialiser of the package-level `filename` (line 27). -/
def initFilename (GOOS GOARCH : String) : String :=
  "hugo_" ++ version ++ "_" ++ GOOS ++ "_" ++ GOARCH

/-- The package-level variables at process start (lines 24-27): `tempfiles`
is the nil slice and `filename` is initialised from the platform. -/
def initGlobals (rt : Runtime) : Globals :=
  { tempfiles := [], filename := initFilename rt.GOOS rt.GOARCH }

/-- The `switch runtime.GOOS` of `Install` (lines 61-74): the new values of the
package-level `filename` and of the local `hugo`. -/
def platformSwitch (GOOS GOARCH : String) (filename hugo : String) : String × String :=
  if GOOS = "darwin" then
    (filename ++ ".zip", hugo)
  else if GOOS = "windows" then
    ((if GOARCH = "386" then filename ++ "32-bit-only" else filename) ++ ".zip",
      hugo ++ ".exe")
  else
    (filename ++ ".tar.gz", hugo)

/-- The local `ftorename` of `Install` (lines 161-165). -/
def ftorename (GOOS : String) (bin filename : String) : String :=
  if GOOS = "windows" then
    bin ++ "/" ++ stringsReplace1 filename ".zip" ".exe"
  else
    bin ++ "/" ++ stringsReplace1 filename ".tar.gz" ""

/-! ## `path/filepath` on Unix targets

`Install` and `unzip` are parametric in `Runtime.Clean` and `Runtime.Join`.
The two definitions below follow the documented behaviour of Go's
`filepath.Clean` and `filepath.Join` where the separator is `/`; they are used
to build concrete platforms. -/

/-- Split a path at every `/`. -/
def splitSlash : List Char → List (List Char)
  | [] => [[]]
  | c :: cs =>
    match splitSlash cs with
    | [] => [[]]
    | w :: ws => if c = '/' then [] :: w :: ws else (c :: w) :: ws

/-- One path element of `Clean`; `stack` holds the kept elements, last first. -/
def cleanStep (rooted : Bool) (stack : List (List Char)) (c : List Char) : List (List Char) :=
  if c = [] ∨ c = ['.'] then stack
  else if c = ['.', '.'] then
    match stack with
    | [] => if rooted then [] else [c]
    | t :: rest => if t = ['.', '.'] then c :: t :: rest else rest
  else c :: stack

/-- Go `filepath.Clean` with separator `/`. -/
def unixClean (p : String) : String :=
  let rooted : Bool := p.data.head? = some '/'
  let body := List.intercalate ['/'] ((splitSlash p.data).foldl (cleanStep rooted) []).reverse
  if rooted then String.mk ('/' :: body)
  else if body = [] then "." else String.mk body

/-- Go `filepath.Join` of two elements with separator `/`. -/
def unixJoin (a b : String) : String :=
  if a = "" then (if b = "" then "" else unixClean b)
  else if b = "" then unixClean a
  else unixClean (a ++ "/" ++ b)

/-! ## Calls made, and how a call of `Install` ends -/

/-- One observable step: a system or library call with the error it returned,
a write to standard output, or the entry into one of the package's own
functions. -/
inductive Event where
  | userCurrent (err : Err)
  | stat (path : String) (err : Err)
  | mkdirAll (path : String) (perm : Nat) (err : Err)
  | mkdir (path : String) (perm : Nat) (err : Err)
  | create (path : String) (err : Err)
  | httpGet (url : String) (err : Err)
  | ioCopy (dst src : String) (err : Err)
  | osOpen (path : String) (err : Err)
  | zipOpenReader (archive : String) (err : Err)
  | zipFileOpen (name : String) (err : Err)
  | openFile (path : String) (mode : Nat) (err : Err)
  | gzipNewReader (err : Err)
  | remove (path : String) (err : Err)
  | rename (oldpath newpath : String) (err : Err)
  | close (what : String)
  | print (text : String)
  | logFatal (err : Err)
  | callUnzip (archive target : String)
  | callUngzip (source target : String)
  | callClean
  deriving DecidableEq, Repr

/-- How a call of `Install` ends: it returns a path, or the process exits. -/
inductive Outcome where
  | returned (path : String)
  | exit (code : Int)
  deriving DecidableEq, Repr

/-- The result of running `Install` once. -/
structure Result where
  outcome : Outcome
  globals : Globals
  trace : List Event
  deriving DecidableEq, Repr

/-! ## `unzip` (lines 172-207) -/

/-- One `*zip.File` of `reader.File`, with what the calls made on it return. -/
structure ZipFile where
  Name : String
  isDir : Bool
  Mode : Nat
  mkdirAllErr : Err
  openErr : Err
  openFileErr : Err
  copyErr : Err

/-- What the calls of `unzip` return. -/
structure UnzipEnv where
  openReader : Except GoError (List ZipFile)
  mkdirAllTarget : Err

/-- The `for _, file := range reader.File` loop of `unzip`.  `defers` are the
pending deferred `Close` calls, most recent first; they run when `unzip`
returns. -/
def unzipLoop (rt : Runtime) (target : String) : List ZipFile → List Event → Err × List Event
  | [], defers => (none, defers)
  | file :: rest, defers =>
    let path := rt.Join target file.Name
    if file.isDir then
      let r := unzipLoop rt target rest defers
      (r.1, Event.mkdirAll path file.Mode file.mkdirAllErr :: r.2)
    else
      match file.openErr with
      | some err => (some err, Event.zipFileOpen file.Name (some err) :: defers)
      | none =>
        let defers1 := Event.close file.Name :: defers
        match file.openFileErr with
        | some err =>
          (some err, Event.zipFileOpen file.Name none :: Event.openFile path file.Mode (some err) :: defers1)
        | none =>
          let defers2 := Event.close path :: defers1
          match file.copyErr with
          | some err =>
            (some err, Event.zipFileOpen file.Name none :: Event.openFile path file.Mode none
              :: Event.ioCopy path file.Name (some err) :: defers2)
          | none =>
            let r := unzipLoop rt target rest defers2
            (r.1, Event.zipFileOpen file.Name none :: Event.openFile path file.Mode none
              :: Event.ioCopy path file.Name none :: r.2)

/-- Go `unzip(archive, target)`: the returned error and the calls made. -/
def unzip (rt : Runtime) (env : UnzipEnv) (archive target : String) : Err × List Event :=
  match env.openReader with
  | .error err => (some err, [Event.callUnzip archive target, Event.zipOpenReader archive (some err)])
  | .ok files =>
    match env.mkdirAllTarget with
    | some err =>
      (some err, [Event.callUnzip archive target, Event.zipOpenReader archive none,
        Event.mkdirAll target 493 (some err)])
    | none =>
      let r := unzipLoop rt target files []
      (r.1, Event.callUnzip archive target :: Event.zipOpenReader archive none
        :: Event.mkdirAll target 493 none :: r.2)

/-! ## `ungzip` (lines 209-231) -/

/-- What the calls of `ungzip` return; `newReader` yields `archive.Name`. -/
structure UngzipEnv where
  openErr : Err
  newReader : Except GoError String
  createErr : Err
  copyErr : Err

/-- Go `ungzip(source, target)`: the returned error and the calls made. -/
def ungzip (rt : Runtime) (env : UngzipEnv) (source target : String) : Err × List Event :=
  match env.openErr with
  | some err => (some err, [Event.callUngzip source target, Event.osOpen source (some err)])
  | none =>
    match env.newReader with
    | .error err =>
      (some err, [Event.callUngzip source target, Event.osOpen source none,
        Event.gzipNewReader (some err), Event.close source])
    | .ok name =>
      let target1 := rt.Join target name
      match env.createErr with
      | some err =>
        (some err, [Event.callUngzip source target, Event.osOpen source none,
          Event.gzipNewReader none, Event.create target1 (some err),
          Event.close "gzip", Event.close source])
      | none =>
        (env.copyErr, [Event.callUngzip source target, Event.osOpen source none,
          Event.gzipNewReader none, Event.create target1 none,
          Event.ioCopy target1 "gzip" env.copyErr,
          Event.close target1, Event.close "gzip", Event.close source])

/-! ## `clean` (lines 233-241) -/

/-- The `for _, file := range tempfiles` loop of `clean`: one `os.Remove` per
path, its result discarded.  `i` counts the calls already made. -/
def cleanLoop (remove : Nat → Err) : Nat → List String → List Event
  | _, [] => []
  | i, file :: rest => Event.remove file (remove i) :: cleanLoop remove (i + 1) rest

/-- Go `clean()`: the package-level variables afterwards and the calls made.
The function reads `tempfiles` and assigns to no package-level variable. -/
def clean (remove : Nat → Err) (g : Globals) : Globals × List Event :=
  (g, [Event.callClean, Event.print "Removing temporary files... "]
        ++ cleanLoop remove 0 g.tempfiles ++ [Event.print "done.\n"])

/-! ## `Install` (lines 49-170) -/

/-- What every call made by `Install` returns at its call site.  The bytes that
`io.Copy(hasher, f)` reads back from the temp file are the bytes that
`io.Copy(out, resp.Body)` wrote to it, so the hashed content is `httpGet`'s
body. -/
structure Env where
  userCurrent : Except GoError String
  statHugo : Err
  mkdirAllCaddy : Err
  mkdirBin : Err
  mkdirTemp : Err
  createTemp : Err
  httpGet : Except GoError (List Nat)
  copyBody : Err
  openTemp : Err
  hashCopy : Err
  unzipEnv : UnzipEnv
  ungzipEnv : UngzipEnv
  remove : Nat → Err
  rename : Err

/-- Go `Install()`.  `Sum256` is `crypto/sha256` (the bytes of the digest of a
byte string). -/
def Install (rt : Runtime) (Sum256 : List Nat → List Nat) (env : Env) (g : Globals) : Result :=
  match env.userCurrent with
  | .error err =>
    ⟨Outcome.exit (-1), g, [Event.userCurrent (some err), Event.print (err.msg ++ "\n")]⟩
  | .ok home =>
    let caddy := rt.Clean (home ++ "/.caddy/")
    let bin := rt.Clean (caddy ++ "/bin")
    let temp := rt.Clean (caddy ++ "/temp")
    let sw := platformSwitch rt.GOOS rt.GOARCH g.filename (rt.Clean (bin ++ "/hugo"))
    let filename := sw.1
    let hugo := sw.2
    let g1 : Globals := { g with filename := filename }
    match env.statHugo with
    | none => ⟨Outcome.returned hugo, g1, [Event.userCurrent none, Event.stat hugo none]⟩
    | some statErr =>
      let t1 : List Event :=
        [Event.userCurrent none, Event.stat hugo (some statErr),
         Event.print ("Unable to find Hugo on " ++ caddy ++ "\n"),
         Event.mkdirAll caddy 438 env.mkdirAllCaddy,
         Event.mkdir bin 438 env.mkdirBin,
         Event.mkdir temp 438 env.mkdirTemp]
      if !osIsExist env.mkdirTemp then
        ⟨Outcome.exit (-1), g1, t1 ++ [Event.print (errText env.mkdirTemp ++ "\n")]⟩
      else
        let tempfile := temp ++ "/" ++ filename
        let g2 : Globals := { g1 with tempfiles := g1.tempfiles ++ [tempfile] }
        match env.createTemp with
        | some err =>
          let c := clean env.remove g2
          ⟨Outcome.exit (-1), c.1,
            t1 ++ [Event.create tempfile (some err)] ++ c.2 ++ [Event.print (err.msg ++ "\n")]⟩
        | none =>
          let t2 := t1 ++ [Event.create tempfile none,
            Event.print "Downloading Hugo from GitHub releases... "]
          match env.httpGet with
          | .error err =>
            ⟨Outcome.exit (-1), g2,
              t2 ++ [Event.httpGet (baseurl ++ filename) (some err),
                Event.print ("An error ocurred while downloading. If this error persists, try downloading Hugo from \"https://github.com/spf13/hugo/releases/\" and put the executable in " ++ bin ++ " and rename it to 'hugo' or 'hugo.exe' if you're on Windows.\n"),
                Event.print (err.msg ++ "\n")]⟩
          | .ok body =>
            let t3 := t2 ++ [Event.httpGet (baseurl ++ filename) none,
              Event.ioCopy tempfile "resp.Body" env.copyBody]
            match env.copyBody with
            | some err => ⟨Outcome.exit (-1), g2, t3 ++ [Event.print (err.msg ++ "\n")]⟩
            | none =>
              let t4 := t3 ++ [Event.print "downloaded.\n", Event.print "Checking SHA256..."]
              match env.openTemp with
              | some err =>
                ⟨Outcome.exit 1, g2, t4 ++ [Event.osOpen tempfile (some err), Event.logFatal (some err)]⟩
              | none =>
                match env.hashCopy with
                | some err =>
                  ⟨Outcome.exit 1, g2,
                    t4 ++ [Event.osOpen tempfile none, Event.ioCopy "hasher" tempfile (some err),
                      Event.logFatal (some err)]⟩
                | none =>
                  let t5 := t4 ++ [Event.osOpen tempfile none, Event.ioCopy "hasher" tempfile none]
                  if EncodeToString (Sum256 body) ≠ mapIndex sha256Hash filename then
                    ⟨Outcome.exit (-1), g2, t5 ++ [Event.print "can't verify SHA256.\n"]⟩
                  else
                    let x :=
                      if rt.GOOS = "darwin" ∨ rt.GOOS = "windows" then
                        unzip rt env.unzipEnv tempfile bin
                      else
                        ungzip rt env.ungzipEnv tempfile bin
                    let t6 := t5 ++ [Event.print "checked!\n", Event.print "Unziping... "] ++ x.2
                    match x.1 with
                    | some err => ⟨Outcome.exit (-1), g2, t6 ++ [Event.print (err.msg ++ "\n")]⟩
                    | none =>
                      let g3 : Globals :=
                        { g2 with tempfiles := g2.tempfiles ++ [bin ++ "/README.md", bin ++ "/LICENSE.md"] }
                      let c := clean env.remove g3
                      let src := ftorename rt.GOOS bin c.1.filename
                      ⟨Outcome.returned hugo, c.1,
                        t6 ++ [Event.print "done.\n"] ++ c.2 ++
                          [Event.rename src hugo env.rename,
                           Event.print ("Hugo installed at " ++ hugo ++ "\n"),
                           Event.close tempfile, Event.close "resp.Body", Event.close tempfile]⟩

/-! ## Derived quantities named by the properties -/

/-- The value `filename` has after the platform switch of one `Install` call
that starts with the package-level `filename` equal to `filename`: the key
used for the temp file, the URL and the registry lookup. -/
def artifactKey (GOOS GOARCH filename : String) : String :=
  (platformSwitch GOOS GOARCH filename "").1

/-- The key of the first `Install` call of a process. -/
def firstKey (GOOS GOARCH : String) : String :=
  artifactKey GOOS GOARCH (initFilename GOOS GOARCH)

/-- The local `hugo` of `Install` after the platform switch, for a home
directory. -/
def finalPath (rt : Runtime) (home : String) : String :=
  (platformSwitch rt.GOOS rt.GOARCH ""
    (rt.Clean (rt.Clean (rt.Clean (home ++ "/.caddy/") ++ "/bin") ++ "/hugo"))).2

/-- The (OS, arch) pairs that have an entry in `sha256Hash`. -/
def supportedPairs : List (String × String) :=
  [ ("darwin", "386"), ("darwin", "amd64"), ("dragonfly", "amd64"),
    ("freebsd", "386"), ("freebsd", "amd64"), ("freebsd", "arm"),
    ("linux", "386"), ("linux", "amd64"), ("linux", "arm"),
    ("netbsd", "386"), ("netbsd", "amd64"), ("netbsd", "arm"),
    ("openbsd", "386"), ("openbsd", "amd64"),
    ("windows", "386"), ("windows", "amd64") ]

/-- Entering an extractor, or the rename to the final path. -/
def Event.isExtractOrRename : Event → Bool
  | Event.callUnzip _ _ => true
  | Event.callUngzip _ _ => true
  | Event.rename _ _ _ => true
  | _ => false

/-- Entering `clean`, or an `os.Remove`. -/
def Event.isCleanup : Event → Bool
  | Event.callClean => true
  | Event.remove _ _ => true
  | _ => false

/-- A step of the download: creating the temp file or the HTTP request. -/
def Event.isDownload : Event → Bool
  | Event.create _ _ => true
  | Event.httpGet _ _ => true
  | _ => false

/-- The path of an `os.Remove` call. -/
def Event.removedPath : Event → Option String
  | Event.remove path _ => some path
  | _ => none

/-! ## Concrete platforms and environments -/

/-- The linux/amd64 build. -/
def linuxAmd64 : Runtime := ⟨"linux", "amd64", unixClean, unixJoin⟩

/-- The darwin/amd64 build. -/
def darwinAmd64 : Runtime := ⟨"darwin", "amd64", unixClean, unixJoin⟩

/-- An error for which `os.IsExist` holds. -/
def errExist : GoError := ⟨"file exists", true⟩

/-- An error for which `os.IsExist` does not hold. -/
def errNotExist : GoError := ⟨"no such file or directory", false⟩

/-- Another error for which `os.IsExist` does not hold. -/
def errPermission : GoError := ⟨"permission denied", false⟩

/-- A network error. -/
def errNetwork : GoError := ⟨"dial tcp: connection refused", false⟩

/-- The bytes of the digest registered for `hugo_0.15_linux_amd64.tar.gz`. -/
def linuxDigest : List Nat :=
  [0x32, 0xa6, 0x33, 0x5b, 0xd7, 0x6f, 0x72, 0x86, 0x7e, 0xfd, 0xec, 0x93, 0x06, 0xa8, 0xa7, 0xeb,
   0x7b, 0x94, 0x98, 0xa2, 0xe0, 0x47, 0x81, 0x05, 0xef, 0xa9, 0x6c, 0x1f, 0xeb, 0xad, 0xb0, 0x9b]

/-- The bytes of the digest registered for `hugo_0.15_darwin_amd64.zip`. -/
def darwinDigest : List Nat :=
  [0xae, 0xec, 0xd6, 0xa1, 0x2d, 0x86, 0xab, 0x92, 0x0f, 0x5b, 0x04, 0xe9, 0x48, 0x64, 0x74, 0xbb,
   0xe4, 0x78, 0xdc, 0x24, 0x6c, 0xdc, 0x22, 0x42, 0x79, 0x98, 0x49, 0xb8, 0x4c, 0x61, 0xc6, 0xf1]

/-- A regular file entry of a zip archive on which every call succeeds. -/
def zipEntry (name : String) (mode : Nat) : ZipFile :=
  ⟨name, false, mode, none, none, none, none⟩

/-- An archive with the binary and the two ancillary files; every call succeeds. -/
def unzipOk (binary : String) : UnzipEnv :=
  ⟨.ok [zipEntry "LICENSE.md" 420, zipEntry "README.md" 420, zipEntry binary 493], none⟩

/-- A gzip stream whose header names `name`; every call succeeds. -/
def ungzipOk (name : String) : UngzipEnv := ⟨none, .ok name, none, none⟩

/-- A run on linux in which the binary is missing, the directories already
exist, and every later call succeeds. -/
def envLinuxOk : Env :=
  { userCurrent := .ok "/home/u", statHugo := some errNotExist,
    mkdirAllCaddy := none, mkdirBin := some errExist, mkdirTemp := some errExist,
    createTemp := none, httpGet := .ok [31, 139, 8], copyBody := none,
    openTemp := none, hashCopy := none,
    unzipEnv := unzipOk "hugo_0.15_linux_amd64",
    ungzipEnv := ungzipOk "hugo_0.15_linux_amd64",
    remove := fun _ => none, rename := none }

/-- A run on linux in which the binary is already installed. -/
def envInstalled : Env := { envLinuxOk with statHugo := none }

/-- A fresh linux machine: nothing exists and all three directory creations
succeed. -/
def envFresh : Env :=
  { envLinuxOk with mkdirAllCaddy := none, mkdirBin := none, mkdirTemp := none }

/-- As `envLinuxOk`, but creating the bin directory fails with an error that
is not "already exists". -/
def envBinDenied : Env := { envLinuxOk with mkdirBin := some errPermission }

/-- As `envLinuxOk`, but the HTTP request fails. -/
def envDownloadFails : Env := { envLinuxOk with httpGet := .error errNetwork }

/-- As `envLinuxOk`, but the temp file cannot be created. -/
def envCreateFails : Env := { envLinuxOk with createTemp := some errPermission }

/-- As `envLinuxOk`, but the final rename fails. -/
def envRenameFails : Env := { envLinuxOk with rename := some errPermission }

/-- A run on darwin in which the binary is missing, the directories already
exist, and every later call succeeds. -/
def envDarwinOk : Env :=
  { envLinuxOk with
    userCurrent := .ok "/Users/u", httpGet := .ok [80, 75, 3, 4],
    unzipEnv := unzipOk "hugo_0.15_darwin_amd64", rename := some errNotExist }

/-- A stand-in for `crypto/sha256` that maps every input to 32 zero bytes. -/
def zeroSum (_ : List Nat) : List Nat := List.replicate 32 0

/-- A zip archive for which `os.MkdirAll` on the target directory fails. -/
def unzipTargetFails : UnzipEnv := ⟨.ok [], some errPermission⟩

/-- A zip archive holding one directory entry whose `os.MkdirAll` fails. -/
def unzipDirFails : UnzipEnv :=
  ⟨.ok [⟨"docs/", true, 493, some errPermission, none, none, none⟩], none⟩

end Insthugo

open Insthugo

set_option maxRecDepth 100000

/-! ## Lemmas shared by the properties -/

theorem hexChars_length (bs : List Nat) : (hexChars bs).length = 2 * bs.length := by
  induction bs with
  | nil => rfl
  | cons b bs ih => simp [hexChars, ih]; omega

theorem EncodeToString_length (bs : List Nat) : (EncodeToString bs).length = 2 * bs.length := by
  simp [EncodeToString, String.length, hexChars_length]

theorem platformSwitch_fst (GOOS GOARCH filename hugo : String) :
    (platformSwitch GOOS GOARCH filename hugo).1 = artifactKey GOOS GOARCH filename := by
  unfold artifactKey platformSwitch
  split_ifs <;> rfl

theorem platformSwitch_snd (GOOS GOARCH filename filename1 hugo : String) :
    (platformSwitch GOOS GOARCH filename hugo).2 = (platformSwitch GOOS GOARCH filename1 hugo).2 := by
  unfold platformSwitch
  split_ifs <;> rfl

theorem cleanLoop_removedPath (remove : Nat → Err) (files : List String) :
    ∀ i : Nat, (cleanLoop remove i files).filterMap Event.removedPath = files := by
  induction files with
  | nil => intro i; rfl
  | cons f rest ih => intro i; simp [cleanLoop, Event.removedPath, ih]

theorem cleanLoop_any_isExtractOrRename (remove : Nat → Err) (files : List String) :
    ∀ i : Nat, (cleanLoop remove i files).any Event.isExtractOrRename = false := by
  induction files with
  | nil => intro i; rfl
  | cons f rest ih => intro i; simp [cleanLoop, Event.isExtractOrRename, ih]

theorem digest_ne_registered (Sum256 : List Nat → List Nat) (body : List Nat) (key : String)
    (hsize : ∀ bs, (Sum256 bs).length = 32)
    (hbad : sha256Hash.lookup key = none ∨
      EncodeToString (Sum256 body) ≠ mapIndex sha256Hash key) :
    EncodeToString (Sum256 body) ≠ mapIndex sha256Hash key := by
  rcases hbad with h | h
  · intro heq
    have hlen := EncodeToString_length (Sum256 body)
    rw [heq, hsize] at hlen
    simp [mapIndex, h] at hlen
  · exact h

/-- On the first call of a process the key is the base name, then the
qualifier on windows/386, then the archive suffix. -/
theorem firstKey_eq (GOOS GOARCH : String) :
    firstKey GOOS GOARCH =
      "hugo_" ++ version ++ "_" ++ GOOS ++ "_" ++ GOARCH ++
        (if GOOS = "windows" ∧ GOARCH = "386" then "32-bit-only" else "") ++
        (if GOOS = "darwin" ∨ GOOS = "windows" then ".zip" else ".tar.gz") := by
  unfold firstKey artifactKey platformSwitch initFilename
  by_cases h1 : GOOS = "darwin"
  · subst h1; simp
  · by_cases h2 : GOOS = "windows"
    · subst h2
      by_cases h3 : GOARCH = "386"
      · subst h3; simp [String.append_assoc]
      · simp [h3]
    · simp [h1, h2]

/-! ## Evaluations -/

/-- C2: on windows/386 the first call of Install derives the key
`hugo_0.15_windows_38632-bit-only.zip`, which is not a key of `sha256Hash`
(the registry has `hugo_0.15_windows_386_32-bit-only.zip`); of the sixteen
pairs with a registry entry only six derive a registered key. -/
theorem firstKey_windows_386_unregistered :
    firstKey "windows" "386" = "hugo_0.15_windows_38632-bit-only.zip" ∧
    sha256Hash.lookup (firstKey "windows" "386") = none ∧
    (sha256Hash.lookup "hugo_0.15_windows_386_32-bit-only.zip").isSome = true ∧
    firstKey "freebsd" "amd64" = "hugo_0.15_freebsd_amd64.tar.gz" ∧
    sha256Hash.lookup (firstKey "freebsd" "amd64") = none ∧
    supportedPairs.filter (fun p => (sha256Hash.lookup (firstKey p.1 p.2)).isSome) =
      [("darwin", "386"), ("darwin", "amd64"), ("linux", "386"), ("linux", "amd64"),
       ("linux", "arm"), ("windows", "amd64")] := by
  decide

/-- C4: on a fresh machine, where all three directory creations succeed,
Install prints `<nil>` and exits with status -1 right after the third
creation; it never creates the temp file nor issues the download.  And when
creating the bin directory fails with "permission denied" while the temp
directory already exists, Install goes on to the download. -/
theorem install_fresh_machine_exits :
    ((Install linuxAmd64 (fun _ => linuxDigest) envBinDenied (initGlobals linuxAmd64)).trace.any
      Event.isDownload = true) ∧
    Install linuxAmd64 (fun _ => linuxDigest) envFresh (initGlobals linuxAmd64) =
      { outcome := Outcome.exit (-1),
        globals := { tempfiles := [], filename := "hugo_0.15_linux_amd64.tar.gz" },
        trace :=
          [Event.userCurrent none,
           Event.stat "/home/u/.caddy/bin/hugo" (some errNotExist),
           Event.print "Unable to find Hugo on /home/u/.caddy\n",
           Event.mkdirAll "/home/u/.caddy" 438 none,
           Event.mkdir "/home/u/.caddy/bin" 438 none,
           Event.mkdir "/home/u/.caddy/temp" 438 none,
           Event.print "<nil>\n"] } := by
  decide

/-- C5: when the HTTP request fails after the temp file has been created and
registered in `tempfiles`, Install exits with status -1 without entering
`clean` and without any `os.Remove`; the sibling path for a failed
`os.Create` does run `clean`. -/
theorem install_download_error_skips_clean :
    Install linuxAmd64 (fun _ => linuxDigest) envDownloadFails (initGlobals linuxAmd64) =
      { outcome := Outcome.exit (-1),
        globals := { tempfiles := ["/home/u/.caddy/temp/hugo_0.15_linux_amd64.tar.gz"],
                     filename := "hugo_0.15_linux_amd64.tar.gz" },
        trace :=
          [Event.userCurrent none,
           Event.stat "/home/u/.caddy/bin/hugo" (some errNotExist),
           Event.print "Unable to find Hugo on /home/u/.caddy\n",
           Event.mkdirAll "/home/u/.caddy" 438 none,
           Event.mkdir "/home/u/.caddy/bin" 438 (some errExist),
           Event.mkdir "/home/u/.caddy/temp" 438 (some errExist),
           Event.create "/home/u/.caddy/temp/hugo_0.15_linux_amd64.tar.gz" none,
           Event.print "Downloading Hugo from GitHub releases... ",
           Event.httpGet
             "https://github.com/spf13/hugo/releases/download/v0.15/hugo_0.15_linux_amd64.tar.gz"
             (some errNetwork),
           Event.print "An error ocurred while downloading. If this error persists, try downloading Hugo from \"https://github.com/spf13/hugo/releases/\" and put the executable in /home/u/.caddy/bin and rename it to 'hugo' or 'hugo.exe' if you're on Windows.\n",
           Event.print "dial tcp: connection refused\n"] } ∧
    (Install linuxAmd64 (fun _ => linuxDigest) envDownloadFails (initGlobals linuxAmd64)).trace.any
      Event.isCleanup = false ∧
    (Install linuxAmd64 (fun _ => linuxDigest) envCreateFails (initGlobals linuxAmd64)).trace.any
      Event.isCleanup = true := by
  decide

/-- C7: a second call of Install in the same process uses a different key.
After a first call on linux/amd64 that finds the binary installed, a second
call that does not find it creates, downloads and looks up
`hugo_0.15_linux_amd64.tar.gz.tar.gz`, which is not in the registry. -/
theorem install_second_call_key_differs :
    (Install linuxAmd64 (fun _ => linuxDigest) envInstalled (initGlobals linuxAmd64)).outcome =
      Outcome.returned "/home/u/.caddy/bin/hugo" ∧
    (Install linuxAmd64 (fun _ => linuxDigest) envInstalled (initGlobals linuxAmd64)).globals.filename =
      "hugo_0.15_linux_amd64.tar.gz" ∧
    Install linuxAmd64 (fun _ => linuxDigest) envLinuxOk
        (Install linuxAmd64 (fun _ => linuxDigest) envInstalled (initGlobals linuxAmd64)).globals =
      { outcome := Outcome.exit (-1),
        globals := { tempfiles := ["/home/u/.caddy/temp/hugo_0.15_linux_amd64.tar.gz.tar.gz"],
                     filename := "hugo_0.15_linux_amd64.tar.gz.tar.gz" },
        trace :=
          [Event.userCurrent none,
           Event.stat "/home/u/.caddy/bin/hugo" (some errNotExist),
           Event.print "Unable to find Hugo on /home/u/.caddy\n",
           Event.mkdirAll "/home/u/.caddy" 438 none,
           Event.mkdir "/home/u/.caddy/bin" 438 (some errExist),
           Event.mkdir "/home/u/.caddy/temp" 438 (some errExist),
           Event.create "/home/u/.caddy/temp/hugo_0.15_linux_amd64.tar.gz.tar.gz" none,
           Event.print "Downloading Hugo from GitHub releases... ",
           Event.httpGet
             "https://github.com/spf13/hugo/releases/download/v0.15/hugo_0.15_linux_amd64.tar.gz.tar.gz"
             none,
           Event.ioCopy "/home/u/.caddy/temp/hugo_0.15_linux_amd64.tar.gz.tar.gz" "resp.Body" none,
           Event.print "downloaded.\n",
           Event.print "Checking SHA256...",
           Event.osOpen "/home/u/.caddy/temp/hugo_0.15_linux_amd64.tar.gz.tar.gz" none,
           Event.ioCopy "hasher" "/home/u/.caddy/temp/hugo_0.15_linux_amd64.tar.gz.tar.gz" none,
           Event.print "can't verify SHA256.\n"] } ∧
    sha256Hash.lookup "hugo_0.15_linux_amd64.tar.gz.tar.gz" = none := by
  decide

/-- C8: on darwin the rename source keeps the archive suffix: for the key
`hugo_0.15_darwin_amd64.zip` Install renames
`<bin>/hugo_0.15_darwin_amd64.zip`, because only `.tar.gz` is stripped off
Windows. -/
theorem ftorename_darwin_keeps_zip :
    ftorename "darwin" "/Users/u/.caddy/bin" (firstKey "darwin" "amd64") =
      "/Users/u/.caddy/bin/hugo_0.15_darwin_amd64.zip" ∧
    Event.rename "/Users/u/.caddy/bin/hugo_0.15_darwin_amd64.zip" "/Users/u/.caddy/bin/hugo"
        (some errNotExist) ∈
      (Install darwinAmd64 (fun _ => darwinDigest) envDarwinOk (initGlobals darwinAmd64)).trace ∧
    ftorename "linux" "/home/u/.caddy/bin" (firstKey "linux" "amd64") =
      "/home/u/.caddy/bin/hugo_0.15_linux_amd64" ∧
    ftorename "windows" "C:/Users/u/.caddy/bin" (firstKey "windows" "amd64") =
      "C:/Users/u/.caddy/bin/hugo_0.15_windows_amd64.exe" := by
  decide

/-- C10: unzip does not propagate the failure of creating the directory of a
directory entry: on an archive whose only entry is a directory for which
`os.MkdirAll` fails, unzip returns nil; the same failure on the target
directory is returned. -/
theorem unzip_ignores_dir_entry_error :
    (unzip linuxAmd64 unzipTargetFails "/home/u/.caddy/temp/a.zip" "/home/u/.caddy/bin").1 =
      some errPermission ∧
    unzip linuxAmd64 unzipDirFails "/home/u/.caddy/temp/a.zip" "/home/u/.caddy/bin" =
      (none,
       [Event.callUnzip "/home/u/.caddy/temp/a.zip" "/home/u/.caddy/bin",
        Event.zipOpenReader "/home/u/.caddy/temp/a.zip" none,
        Event.mkdirAll "/home/u/.caddy/bin" 493 none,
        Event.mkdirAll "/home/u/.caddy/bin/docs" 493 (some errPermission)]) := by
  decide

/-! ## Properties of every run -/

/-- C9: a failed rename is not fatal in the code.  The outcome and the
package-level variables of Install never depend on what `os.Rename` returns;
in particular, on linux/amd64 with the binary missing and every other call
succeeding, a failing rename is followed by the message
`Hugo installed at ...` and Install returns the path. -/
theorem install_ignores_rename_error :
    (∀ (rt : Runtime) (Sum256 : List Nat → List Nat) (env : Env) (g : Globals) (e : GoError),
      (Install rt Sum256 { env with rename := some e } g).outcome =
        (Install rt Sum256 { env with rename := none } g).outcome ∧
      (Install rt Sum256 { env with rename := some e } g).globals =
        (Install rt Sum256 { env with rename := none } g).globals) ∧
    (Install linuxAmd64 (fun _ => linuxDigest) envRenameFails (initGlobals linuxAmd64)).outcome =
      Outcome.returned "/home/u/.caddy/bin/hugo" ∧
    (Install linuxAmd64 (fun _ => linuxDigest) envRenameFails (initGlobals linuxAmd64)).trace.drop 31 =
      [Event.rename "/home/u/.caddy/bin/hugo_0.15_linux_amd64" "/home/u/.caddy/bin/hugo"
         (some errPermission),
       Event.print "Hugo installed at /home/u/.caddy/bin/hugo\n",
       Event.close "/home/u/.caddy/temp/hugo_0.15_linux_amd64.tar.gz",
       Event.close "resp.Body",
       Event.close "/home/u/.caddy/temp/hugo_0.15_linux_amd64.tar.gz"] := by
  refine ⟨?_, by decide, by decide⟩
  intro rt Sum256 env g e
  simp only [Install]
  cases env.userCurrent with
  | error err => exact ⟨rfl, rfl⟩
  | ok home =>
    cases env.statHugo with
    | none => exact ⟨rfl, rfl⟩
    | some se =>
      dsimp only
      split
      · exact ⟨rfl, rfl⟩
      · cases env.createTemp with
        | some err => exact ⟨rfl, rfl⟩
        | none =>
          cases env.httpGet with
          | error err => exact ⟨rfl, rfl⟩
          | ok body =>
            cases env.copyBody with
            | some err => exact ⟨rfl, rfl⟩
            | none =>
              cases env.openTemp with
              | some err => exact ⟨rfl, rfl⟩
              | none =>
                cases env.hashCopy with
                | some err => exact ⟨rfl, rfl⟩
                | none =>
                  dsimp only
                  split
                  · exact ⟨rfl, rfl⟩
                  · split
                    · exact ⟨rfl, rfl⟩
                    · exact ⟨rfl, rfl⟩

/-- C1: verification fails closed.  For every platform, every value of the
package-level variables, every environment whose download yields `body`, and
every digest function with 32-byte digests: if the key is absent from
`sha256Hash`, or the hex digest of `body` differs from the registered one,
then Install never enters unzip or ungzip and never renames; it returns a
path only through the already-installed short-circuit; when every step before
the comparison succeeds it exits with status -1 right after printing
`can't verify SHA256.`; and for an absent key the looked-up value is the empty
string, which differs from the 64-character hex digest. -/
theorem verification_fails_closed (rt : Runtime) (Sum256 : List Nat → List Nat) (env : Env)
    (g : Globals) (body : List Nat)
    (hsize : ∀ bs, (Sum256 bs).length = 32)
    (hget : env.httpGet = .ok body)
    (hbad : sha256Hash.lookup (artifactKey rt.GOOS rt.GOARCH g.filename) = none ∨
      EncodeToString (Sum256 body) ≠ mapIndex sha256Hash (artifactKey rt.GOOS rt.GOARCH g.filename)) :
    (Install rt Sum256 env g).trace.any Event.isExtractOrRename = false ∧
    (∀ p, (Install rt Sum256 env g).outcome = Outcome.returned p → env.statHugo = none) ∧
    (∀ home statErr, env.userCurrent = .ok home → env.statHugo = some statErr →
        osIsExist env.mkdirTemp = true → env.createTemp = none →
        env.copyBody = none → env.openTemp = none → env.hashCopy = none →
        (Install rt Sum256 env g).outcome = Outcome.exit (-1) ∧
        (Install rt Sum256 env g).trace.getLast? = some (Event.print "can't verify SHA256.\n")) ∧
    (sha256Hash.lookup (artifactKey rt.GOOS rt.GOARCH g.filename) = none →
        mapIndex sha256Hash (artifactKey rt.GOOS rt.GOARCH g.filename) = "" ∧
        (EncodeToString (Sum256 body)).length = 64 ∧
        EncodeToString (Sum256 body) ≠ mapIndex sha256Hash (artifactKey rt.GOOS rt.GOARCH g.filename)) := by
  have hne := digest_ne_registered Sum256 body _ hsize hbad
  refine ⟨?_, ?_, ?_, ?_⟩
  · simp only [Install, platformSwitch_fst, hget]
    cases env.userCurrent with
    | error err => simp [Event.isExtractOrRename]
    | ok home =>
      cases env.statHugo with
      | none => simp [Event.isExtractOrRename]
      | some se =>
        dsimp only
        split
        · simp [Event.isExtractOrRename]
        · cases env.createTemp with
          | some err => simp [clean, Event.isExtractOrRename, cleanLoop_any_isExtractOrRename]
          | none =>
            cases env.copyBody with
            | some err => simp [Event.isExtractOrRename]
            | none =>
              cases env.openTemp with
              | some err => simp [Event.isExtractOrRename]
              | none =>
                cases env.hashCopy with
                | some err => simp [Event.isExtractOrRename]
                | none => simp [hne, Event.isExtractOrRename]
  · intro p
    simp only [Install, platformSwitch_fst, hget]
    cases env.userCurrent with
    | error err => simp
    | ok home =>
      cases env.statHugo with
      | none => simp
      | some se =>
        dsimp only
        split
        · simp
        · cases env.createTemp with
          | some err => simp
          | none =>
            cases env.copyBody with
            | some err => simp
            | none =>
              cases env.openTemp with
              | some err => simp
              | none =>
                cases env.hashCopy with
                | some err => simp
                | none => simp [hne]
  · intro home statErr h1 h2 h3 h4 h5 h6 h7
    simp [Install, platformSwitch_fst, hget, h1, h2, h3, h4, h5, h6, h7, hne]
  · intro h
    refine ⟨by simp [mapIndex, h], ?_, hne⟩
    rw [EncodeToString_length, hsize]

/-- C1 at a concrete input: on linux/amd64 with a body whose digest is not the
registered one, Install exits at the comparison. -/
theorem verification_fails_closed_witness :
    envLinuxOk.httpGet = .ok [31, 139, 8] ∧
    EncodeToString (zeroSum [31, 139, 8]) ≠
      mapIndex sha256Hash (artifactKey "linux" "amd64" "hugo_0.15_linux_amd64") ∧
    (Install linuxAmd64 zeroSum envLinuxOk (initGlobals linuxAmd64)).trace.any
      Event.isExtractOrRename = false ∧
    (Install linuxAmd64 zeroSum envLinuxOk (initGlobals linuxAmd64)).outcome = Outcome.exit (-1) :=
  have h := verification_fails_closed linuxAmd64 zeroSum envLinuxOk (initGlobals linuxAmd64)
    [31, 139, 8] (fun _ => by simp [zeroSum]) rfl (Or.inr (by decide))
  ⟨rfl, by decide, h.1,
    (h.2.2.1 "/home/u" errNotExist rfl rfl rfl rfl rfl rfl rfl).1⟩

/-- C3: the already-installed short-circuit.  When the current user is found
and `os.Stat` on the final path succeeds, Install returns the final path
having made no other call (no directory or file creation, no download, no
checksum, no extraction), its only effect being the update of the
package-level `filename`; a second call in such a state does the same and
returns the same path.  The final path is the cleaned
`<home>/.caddy/bin/hugo`, with `.exe` appended on windows. -/
theorem install_short_circuit (rt : Runtime) (Sum256 : List Nat → List Nat) (env1 env2 : Env)
    (g : Globals) (home : String)
    (hu1 : env1.userCurrent = .ok home) (hs1 : env1.statHugo = none)
    (hu2 : env2.userCurrent = .ok home) (hs2 : env2.statHugo = none) :
    Install rt Sum256 env1 g =
      { outcome := Outcome.returned (finalPath rt home),
        globals := { g with filename := artifactKey rt.GOOS rt.GOARCH g.filename },
        trace := [Event.userCurrent none, Event.stat (finalPath rt home) none] } ∧
    (Install rt Sum256 env2 (Install rt Sum256 env1 g).globals).outcome =
      Outcome.returned (finalPath rt home) ∧
    (Install rt Sum256 env2 (Install rt Sum256 env1 g).globals).trace =
      [Event.userCurrent none, Event.stat (finalPath rt home) none] ∧
    (Install rt Sum256 env2 (Install rt Sum256 env1 g).globals).globals.tempfiles = g.tempfiles ∧
    finalPath rt home =
      rt.Clean (rt.Clean (rt.Clean (home ++ "/.caddy/") ++ "/bin") ++ "/hugo") ++
        (if rt.GOOS = "windows" then ".exe" else "") := by
  have key : ∀ (env : Env) (g0 : Globals), env.userCurrent = .ok home → env.statHugo = none →
      Install rt Sum256 env g0 =
        { outcome := Outcome.returned (finalPath rt home),
          globals := { g0 with filename := artifactKey rt.GOOS rt.GOARCH g0.filename },
          trace := [Event.userCurrent none, Event.stat (finalPath rt home) none] } := by
    intro env g0 hu hs
    simp only [Install, hu, hs, platformSwitch_fst, finalPath]
    rw [platformSwitch_snd rt.GOOS rt.GOARCH g0.filename ""]
  refine ⟨key env1 g hu1 hs1, ?_, ?_, ?_, ?_⟩
  · rw [key env2 _ hu2 hs2]
  · rw [key env2 _ hu2 hs2]
  · rw [key env2 _ hu2 hs2, key env1 g hu1 hs1]
  · unfold finalPath platformSwitch
    by_cases h1 : rt.GOOS = "darwin"
    · simp [h1]
    · by_cases h2 : rt.GOOS = "windows"
      · simp [h2]
      · simp [h1, h2]

/-- C3 at a concrete input: linux/amd64 with the binary installed. -/
theorem install_short_circuit_witness :
    envInstalled.userCurrent = .ok "/home/u" ∧ envInstalled.statHugo = none ∧
    finalPath linuxAmd64 "/home/u" = "/home/u/.caddy/bin/hugo" ∧
    (Install linuxAmd64 zeroSum envInstalled (initGlobals linuxAmd64)).outcome =
      Outcome.returned (finalPath linuxAmd64 "/home/u") ∧
    (Install linuxAmd64 zeroSum envInstalled
        (Install linuxAmd64 zeroSum envInstalled (initGlobals linuxAmd64)).globals).outcome =
      Outcome.returned (finalPath linuxAmd64 "/home/u") :=
  have h := install_short_circuit linuxAmd64 zeroSum envInstalled envInstalled
    (initGlobals linuxAmd64) "/home/u" rfl rfl rfl rfl
  ⟨rfl, rfl, by decide, congrArg Result.outcome h.1, h.2.1⟩

/-- C6, as stated, fails: `clean` leaves `tempfiles` as it was, so after a
complete first run on linux/amd64 the three registered paths are still in
`tempfiles` when Install returns, which is the state a second call starts in. -/
theorem tempfiles_not_cleared :
    (clean (fun _ => none)
        { tempfiles := ["/home/u/.caddy/temp/hugo_0.15_linux_amd64.tar.gz"],
          filename := "hugo_0.15_linux_amd64.tar.gz" }).1.tempfiles ≠ [] ∧
    (Install linuxAmd64 (fun _ => linuxDigest) envLinuxOk (initGlobals linuxAmd64)).outcome =
      Outcome.returned "/home/u/.caddy/bin/hugo" ∧
    (Install linuxAmd64 (fun _ => linuxDigest) envLinuxOk (initGlobals linuxAmd64)).globals.tempfiles =
      ["/home/u/.caddy/temp/hugo_0.15_linux_amd64.tar.gz", "/home/u/.caddy/bin/README.md",
       "/home/u/.caddy/bin/LICENSE.md"] ∧
    (Install linuxAmd64 (fun _ => linuxDigest) envLinuxOk (initGlobals linuxAmd64)).globals.tempfiles
      ≠ [] := by
  decide

/-- C6, amended: `clean` calls `os.Remove` once on every path of `tempfiles`,
in order, and leaves the package-level variables unchanged; `tempfiles` is
empty at process start, and a call of Install only appends to it. -/
theorem clean_removes_each_keeps_tempfiles (rt : Runtime) (Sum256 : List Nat → List Nat)
    (env : Env) (g : Globals) (remove : Nat → Err) :
    (clean remove g).1 = g ∧
    (clean remove g).2.filterMap Event.removedPath = g.tempfiles ∧
    (initGlobals rt).tempfiles = [] ∧
    ∃ extra, (Install rt Sum256 env g).globals.tempfiles = g.tempfiles ++ extra := by
  refine ⟨rfl, ?_, rfl, ?_⟩
  · simp [clean, Event.removedPath, cleanLoop_removedPath]
  · simp only [Install]
    cases env.userCurrent with
    | error err => exact ⟨[], (List.append_nil _).symm⟩
    | ok home =>
      cases env.statHugo with
      | none => exact ⟨[], (List.append_nil _).symm⟩
      | some se =>
        dsimp only
        split
        · exact ⟨[], (List.append_nil _).symm⟩
        · cases env.createTemp with
          | some err => exact ⟨_, rfl⟩
          | none =>
            cases env.httpGet with
            | error err => exact ⟨_, rfl⟩
            | ok body =>
              cases env.copyBody with
              | some err => exact ⟨_, rfl⟩
              | none =>
                cases env.openTemp with
                | some err => exact ⟨_, rfl⟩
                | none =>
                  cases env.hashCopy with
                  | some err => exact ⟨_, rfl⟩
                  | none =>
                    dsimp only
                    split
                    · exact ⟨_, rfl⟩
                    · split
                      · exact ⟨_, rfl⟩
                      · exact ⟨_, List.append_assoc _ _ _⟩
